import Mathlib

/-!
Verification of the preprocessing modules of the Applied-ML-Projects
repository (GoldRecovery-Process-Optimizer, OilWell-Location-Optimizer,
Gaming-Market-Intelligence, common_utils).

The repository's `data/preprocess.py` modules are not shipped in this
source tree; only their integration tests and `common_utils/seed.py` are.
The preprocessing functions are therefore modelled from the spec (and the
schemas visible in the tests), as noted in each doc comment.  `set_seed`
is embedded from `common_utils/seed.py` directly.

Dataframes are modelled as a list of column names together with row-major
cell data; a cell is a rational number, a string, or null (pandas NaN).
Floating-point arithmetic is modelled over ℚ.
-/

namespace AppliedML

/-- Model of a pandas cell: a numeric value, a string value, or a missing
value (NaN / None). -/
inductive Cell where
  | num : ℚ → Cell
  | str : String → Cell
  | null : Cell
deriving DecidableEq, Repr

/-- Model of a pandas DataFrame: column names plus row-major cells.
Row `i`, column `j` holds the value of column `cols[j]`. -/
structure Frame where
  cols : List String
  rows : List (List Cell)
deriving DecidableEq, Repr

/-- Position of a named column in a column list. -/
def colIdx : List String → String → Option ℕ
  | [], _ => none
  | a :: as, c =>
    if a == c then some 0 else (colIdx as c).map (fun j => j + 1)

/-- Value of the named column in one row (null when absent). -/
def getCell (cols : List String) (row : List Cell) (c : String) : Cell :=
  match colIdx cols c with
  | some j => row.getD j Cell.null
  | none => Cell.null

/-! ## GoldRecovery: `compute_recovery` -/

/-- Tolerance below which the recovery denominator counts as zero
(`np.isclose`-style guard in the recovery formula). -/
def recoveryEps : ℚ := 1 / 1000000000

/-- Modelled from the spec: pointwise recovery formula
`100 * concentrate * (feed - tail) / (feed * (concentrate - tail))`,
returning NaN (modelled as `none`) when the denominator is within
`recoveryEps` of zero. -/
def recovery1 (feed concentrate tail : ℚ) : Option ℚ :=
  let den := feed * (concentrate - tail)
  if |den| < recoveryEps then none
  else some (100 * concentrate * (feed - tail) / den)

/-- Modelled from the spec: `compute_recovery` applies the recovery formula
elementwise to three input series of equal length. -/
def compute_recovery : List ℚ → List ℚ → List ℚ → List (Option ℚ)
  | f :: fs, c :: cs, t :: ts => recovery1 f c t :: compute_recovery fs cs ts
  | _, _, _ => []

/-- Valid metallurgical inputs: nonnegative tail, feed between tail and
concentrate, and a denominator at least the zero tolerance. -/
def ValidRecoveryInput (feed concentrate tail : ℚ) : Prop :=
  0 ≤ tail ∧ tail ≤ feed ∧ feed ≤ concentrate ∧
    recoveryEps ≤ feed * (concentrate - tail)

/-! ## OilWell: `compute_profit` -/

/-- Modelled from the spec: `compute_profit` returns
`predicted_units_sum * revenue_per_unit - total_cost`. -/
def compute_profit (predicted_units_sum revenue_per_unit total_cost : ℚ) : ℚ :=
  predicted_units_sum * revenue_per_unit - total_cost

/-! ## common_utils: `set_seed` (embedded from `common_utils/seed.py`) -/

/-- Numeric value of a decimal digit character, or `none`. -/
def digitVal (c : Char) : Option ℕ :=
  if c.isDigit then some (c.toNat - 48) else none

/-- Accumulating decimal parser over a character list. -/
def parseNatAux : List Char → ℕ → Option ℕ
  | [], acc => some acc
  | c :: cs, acc =>
    match digitVal c with
    | some d => parseNatAux cs (10 * acc + d)
    | none => none

/-- Model of Python's `int(string)` on decimal literals: an optional sign
followed by at least one digit; anything else raises `ValueError`,
modelled as `none`. -/
def parseInt (s : String) : Option ℤ :=
  match s.data with
  | [] => none
  | '-' :: cs =>
    if cs.isEmpty then none else (parseNatAux cs 0).map (fun n => -(n : ℤ))
  | '+' :: cs =>
    if cs.isEmpty then none else (parseNatAux cs 0).map (fun n => (n : ℤ))
  | cs => (parseNatAux cs 0).map (fun n => (n : ℤ))

/-! ## OilWell: `clean_deduplicate_and_shuffle` -/

/-- Row of an oil-well region table: well identifier, feature values
(`f0`, `f1`, `f2`), and the `product` target volume. -/
structure OWRow where
  id : String
  feats : List ℚ
  target : ℚ
deriving DecidableEq, Repr

/-- Oil-well frame: column names plus typed rows. -/
structure OWFrame where
  cols : List String
  rows : List OWRow
deriving DecidableEq, Repr

/-- Modelled from the spec: among the rows sharing the identifier `i`, a
row with the maximum target value (none when no row has that id). -/
def bestFor (rows : List OWRow) (i : String) : Option OWRow :=
  (rows.filter (fun r => r.id == i)).argmax (fun r => r.target)

/-- Modelled from the spec: keep exactly one row per distinct identifier,
namely one with the maximum target value among rows sharing that id. -/
def dedupMax (rows : List OWRow) : List OWRow :=
  ((rows.map (fun r => r.id)).dedup).filterMap (bestFor rows)

/-- Modelled from the spec: the deterministic shuffle
(`df.sample(frac=1, random_state=...)`) is some seed-determined
permutation of the rows; it is modelled as a rotation by the seed. -/
def shuffleRows (randomState : ℕ) (rows : List OWRow) : List OWRow :=
  rows.rotate randomState

/-- Modelled from the spec: `clean_deduplicate_and_shuffle` raises
`ValueError("Missing columns: ...")` when the id or target column is
absent from the frame, and otherwise deduplicates by identifier keeping
the maximum-target row and shuffles deterministically. -/
def clean_deduplicate_and_shuffle (df : OWFrame) (idCol targetCol : String)
    (randomState : ℕ) : Except String OWFrame :=
  let missing := [idCol, targetCol].filter (fun c => !df.cols.contains c)
  if missing = [] then
    Except.ok { cols := df.cols,
                rows := shuffleRows randomState (dedupMax df.rows) }
  else
    Except.error ("Missing columns" ++ ": " ++ String.intercalate ", " missing)

/-! ## GamingMarket: `load_raw_dataset`, `make_features_and_target` -/

/-- Raw user score as read from the CSV: a number, the literal "tbd", or a
missing value. -/
inductive RawScore where
  | val : ℚ → RawScore
  | tbd : RawScore
  | missing : RawScore
deriving DecidableEq, Repr

/-- Raw game record with the CSV schema, header names already lowercased
by the loader (the CSV parsing itself is file I/O, outside the model). -/
structure RawGame where
  name : String
  platform : String
  year_of_release : Option ℚ
  genre : String
  na_sales : ℚ
  eu_sales : ℚ
  jp_sales : ℚ
  other_sales : ℚ
  critic_score : Option ℚ
  user_score : RawScore
  rating : String
deriving DecidableEq, Repr

/-- Normalized game record produced by the loader, with the derived
`total_sales` column. -/
structure Game where
  name : String
  platform : String
  year_of_release : Option ℚ
  genre : String
  na_sales : ℚ
  eu_sales : ℚ
  jp_sales : ℚ
  other_sales : ℚ
  critic_score : Option ℚ
  user_score : Option ℚ
  rating : String
  total_sales : ℚ
deriving DecidableEq, Repr

/-- Modelled from the spec: `load_raw_dataset` normalizes the raw table,
converts "tbd" user scores to NaN, and derives `total_sales` as the sum of
the four regional sales columns. -/
def load_raw_dataset (rows : List RawGame) : List Game :=
  rows.map (fun r =>
    { name := r.name
      platform := r.platform
      year_of_release := r.year_of_release
      genre := r.genre
      na_sales := r.na_sales
      eu_sales := r.eu_sales
      jp_sales := r.jp_sales
      other_sales := r.other_sales
      critic_score := r.critic_score
      user_score := match r.user_score with
        | RawScore.val q => some q
        | _ => none
      rating := r.rating
      total_sales := r.na_sales + r.eu_sales + r.jp_sales + r.other_sales })

/-- Configuration of the GamingMarket preprocessing, with the defaults the
tests assert: median numeric imputation, most-frequent categorical
imputation, numeric scaling on, and a 1.0-million-sales threshold. -/
structure PreprocessConfig where
  numeric_imputer_strategy : String := "median"
  categorical_imputer_strategy : String := "most_frequent"
  scale_numeric : Bool := true
  target_threshold_million : ℚ := 1
deriving DecidableEq, Repr

/-- Columns that leak the target: the regional sales and the derived
total-sales column. -/
def salesCols : List String :=
  ["na_sales", "eu_sales", "jp_sales", "other_sales", "total_sales"]

/-- Drop the named columns (and the corresponding cells) from a frame. -/
def dropColumns (df : Frame) (cs : List String) : Frame :=
  { cols := df.cols.filter (fun c => !cs.contains c)
    rows := df.rows.map (fun r =>
      ((df.cols.zip r).filter (fun p => !cs.contains p.1)).map (fun p => p.2)) }

/-- Numeric value of a cell; NaN and non-numeric cells have none. -/
def cellNum : Cell → Option ℚ
  | Cell.num q => some q
  | _ => none

/-- Modelled from the spec: the binary target of one row, 1 when the row's
`total_sales` is at least the threshold and 0 otherwise (a missing
`total_sales` compares false, as NaN does in pandas). -/
def rowTarget (cols : List String) (threshold : ℚ) (r : List Cell) : ℚ :=
  match cellNum (getCell cols r "total_sales") with
  | some v => if threshold ≤ v then 1 else 0
  | none => 0

/-- Modelled from the spec: `make_features_and_target` returns the feature
frame with the sales columns dropped (leakage guard) and the binary target
vector `1 if total_sales >= threshold else 0`. -/
def make_features_and_target (df : Frame) (config : PreprocessConfig) :
    Frame × List ℚ :=
  (dropColumns df salesCols,
   df.rows.map (rowTarget df.cols config.target_threshold_million))

/-! ## GoldRecovery: `basic_clean`, `fill_missing_with_median` -/

/-- Recovery-range row predicate: the `final.output.recovery` cell holds a
number in [0, 100].  A NaN or non-numeric recovery fails the check, as a
pandas `between` mask does. -/
def recoveryOK (cols : List String) (r : List Cell) : Bool :=
  match cellNum (getCell cols r "final.output.recovery") with
  | some q => decide (0 ≤ q ∧ q ≤ 100)
  | none => false

/-- Number of null cells in the named column. -/
def nullCount (df : Frame) (c : String) : ℕ :=
  (df.rows.map (fun r => getCell df.cols r c)).count Cell.null

/-- High-null column predicate: more than 60 percent of the column's
entries are null. -/
def highNull (df : Frame) (c : String) : Bool :=
  decide (3 * df.rows.length < 5 * nullCount df c)

/-- The frame restricted to the rows whose recovery is in range. -/
def rowFiltered (df : Frame) : Frame :=
  ⟨df.cols, df.rows.filter (recoveryOK df.cols)⟩

/-- Modelled from the spec: `basic_clean` removes the rows whose
`final.output.recovery` lies outside [0, 100] (when that column is
present) and then drops the columns that are more than 60 percent null.
The date sort the implementation also performs is a permutation of the
kept rows and is not modelled. -/
def basic_clean (df : Frame) : Frame :=
  let df1 := if df.cols.contains "final.output.recovery" then rowFiltered df
             else df
  dropColumns df1 (df1.cols.filter (highNull df1))

/-- Cells of column `j` (in row order, rows missing the position skipped). -/
def colCells (df : Frame) (j : ℕ) : List Cell :=
  df.rows.filterMap (fun r => r.get? j)

/-- Non-null numeric values of column `j`. -/
def colNums (df : Frame) (j : ℕ) : List ℚ :=
  (colCells df j).filterMap cellNum

/-- Ordered insertion into a sorted list of rationals. -/
def insertRat (q : ℚ) : List ℚ → List ℚ
  | [] => [q]
  | x :: xs => if q ≤ x then q :: x :: xs else x :: insertRat q xs

/-- Insertion sort of a list of rationals. -/
def sortRat : List ℚ → List ℚ
  | [] => []
  | x :: xs => insertRat x (sortRat xs)

/-- Median of a list (pandas `Series.median`): middle of the sorted list,
or the mean of the two middle values for even length; NaN (none) for the
empty list. -/
def median (l : List ℚ) : Option ℚ :=
  match l with
  | [] => none
  | _ :: _ =>
    let s := sortRat l
    let n := s.length
    if n % 2 = 1 then some (s.getD (n / 2) 0)
    else some ((s.getD (n / 2 - 1) 0 + s.getD (n / 2) 0) / 2)

/-- Per-column medians of the non-null numeric entries. -/
def colMedians (df : Frame) : List (Option ℚ) :=
  (List.range df.cols.length).map (fun j => median (colNums df j))

/-- Fill the nulls of one row with the per-column medians; a null in a
column whose median is NaN (no non-null entries) stays null, as with
pandas `fillna`. -/
def fillRow : List (Option ℚ) → List Cell → List Cell
  | _, [] => []
  | [], c :: cs => c :: fillRow [] cs
  | m :: ms, c :: cs =>
    (if c = Cell.null then
       match m with
       | some q => Cell.num q
       | none => Cell.null
     else c) :: fillRow ms cs

/-- Modelled from the spec: `fill_missing_with_median` fills each null
cell with the median of its column computed over the non-null entries
(`df.fillna(df.median())`). -/
def fill_missing_with_median (df : Frame) : Frame :=
  ⟨df.cols, df.rows.map (fillRow (colMedians df))⟩

/-- True when some row of the frame contains a null cell. -/
def hasNull (df : Frame) : Bool :=
  df.rows.any (fun r => r.contains Cell.null)

/-- Embedding of `common_utils.seed.set_seed`.  The explicit argument is
`seed`; `envSEED` models `os.environ.get("SEED")`.  The RNG side effects
(`random.seed`, `np.random.seed`, optional torch seeding) are outside the
value-level model; the function returns the seed actually used, or the
`ValueError` that `int()` raises on an unparsable `SEED` value. -/
def set_seed (seed : Option ℤ) (envSEED : Option String) : Except String ℤ :=
  match seed with
  | some s => Except.ok s
  | none =>
    match envSEED with
    | none => Except.ok 42
    | some v =>
      match parseInt v with
      | some n => Except.ok n
      | none => Except.error "invalid literal for int()"

end AppliedML

namespace AppliedML

/-- C1: `compute_recovery` is the elementwise recovery formula, is NaN
exactly when the denominator is within tolerance of zero, and lands in
[0, 100] on valid inputs. -/
theorem compute_recovery_spec (feed conc tail : List ℚ) (i : ℕ)
    (hf : i < feed.length) (hc : i < conc.length) (ht : i < tail.length) :
    (compute_recovery feed conc tail).get? i =
      some (if |feed.getD i 0 * (conc.getD i 0 - tail.getD i 0)| < recoveryEps
            then none
            else some (100 * conc.getD i 0 * (feed.getD i 0 - tail.getD i 0) /
                       (feed.getD i 0 * (conc.getD i 0 - tail.getD i 0)))) ∧
    (ValidRecoveryInput (feed.getD i 0) (conc.getD i 0) (tail.getD i 0) →
      ∃ v, (compute_recovery feed conc tail).get? i = some (some v) ∧
        0 ≤ v ∧ v ≤ 100) := by
  induction feed generalizing conc tail i with
  | nil => simp at hf
  | cons f fs ih =>
    match conc, tail with
    | [], _ => simp at hc
    | _ :: _, [] => simp at ht
    | c :: cs, t :: ts =>
      match i with
      | Nat.succ k =>
        simpa [compute_recovery] using
          ih cs ts k (Nat.lt_of_succ_lt_succ hf)
            (Nat.lt_of_succ_lt_succ hc) (Nat.lt_of_succ_lt_succ ht)
      | 0 =>
        refine ⟨by simp [compute_recovery, recovery1], ?_⟩
        rintro ⟨h0t, htf, hfc, hden⟩
        simp only [List.getD_cons_zero] at h0t htf hfc hden ⊢
        have hepos : (0 : ℚ) < recoveryEps := by norm_num [recoveryEps]
        have hdpos : 0 < f * (c - t) := lt_of_lt_of_le hepos hden
        have hnot : ¬ |f * (c - t)| < recoveryEps := by
          rw [abs_of_pos hdpos]; exact not_lt.mpr hden
        refine ⟨100 * c * (f - t) / (f * (c - t)), ?_, ?_, ?_⟩
        · simp [compute_recovery, recovery1, hnot]
        · apply div_nonneg _ (le_of_lt hdpos)
          have hc0 : 0 ≤ c := le_trans h0t (le_trans htf hfc)
          nlinarith
        · rw [div_le_iff₀ hdpos]
          nlinarith

/-- Witness for C1 at feed 8, concentrate 25, tail 3. -/
theorem compute_recovery_spec_witness :
    (compute_recovery [8] [25] [3]).get? 0 =
      some (if |(8 : ℚ) * (25 - 3)| < recoveryEps
            then none
            else some (100 * 25 * (8 - 3) / (8 * (25 - 3)))) ∧
    (ValidRecoveryInput 8 25 3 →
      ∃ v, (compute_recovery [8] [25] [3]).get? 0 = some (some v) ∧
        0 ≤ v ∧ v ≤ 100) := by
  have h := compute_recovery_spec [8] [25] [3] 0 (by decide) (by decide) (by decide)
  simpa using h

/-- Helper: an identifier occurring among the rows has a best row, which is
one of the rows, carries that identifier, and dominates every row sharing
the identifier. -/
theorem bestFor_spec (rows : List OWRow) (i : String)
    (h : i ∈ rows.map (fun r => r.id)) :
    ∃ r, bestFor rows i = some r ∧ r.id = i ∧ r ∈ rows ∧
      ∀ r' ∈ rows, r'.id = i → r'.target ≤ r.target := by
  obtain ⟨r0, hr0, hid0⟩ := List.mem_map.mp h
  have hr0f : r0 ∈ rows.filter (fun r => r.id == i) :=
    List.mem_filter.mpr ⟨hr0, by simp [hid0]⟩
  rcases heq : bestFor rows i with _ | m
  · exfalso
    rw [bestFor] at heq
    rw [List.argmax_eq_none.mp heq] at hr0f
    simp at hr0f
  · rw [bestFor] at heq
    have hm : m ∈ rows.filter (fun r => r.id == i) := List.argmax_mem heq
    obtain ⟨hmr, hmid⟩ := List.mem_filter.mp hm
    refine ⟨m, rfl, by simpa using hmid, hmr, fun r' hr' hid' => ?_⟩
    exact List.le_of_mem_argmax
      (List.mem_filter.mpr ⟨hr', by simp [hid']⟩) heq

/-- Helper: filter-mapping `bestFor` over identifiers that all occur among
the rows reproduces exactly that identifier list. -/
theorem filterMap_bestFor_ids (rows : List OWRow) (l : List String)
    (h : ∀ x ∈ l, x ∈ rows.map (fun r => r.id)) :
    (l.filterMap (bestFor rows)).map (fun r => r.id) = l := by
  induction l with
  | nil => simp
  | cons x xs ih =>
    obtain ⟨r, hr, hid, -, -⟩ := bestFor_spec rows x (h x (by simp))
    rw [List.filterMap_cons_some hr]
    simp only [List.map_cons, hid]
    rw [ih (fun y hy => h y (List.mem_cons_of_mem _ hy))]

/-- Helper: identifiers of `dedupMax` are the deduplicated identifiers of
the input rows. -/
theorem dedupMax_ids (rows : List OWRow) :
    (dedupMax rows).map (fun r => r.id) = (rows.map (fun r => r.id)).dedup :=
  filterMap_bestFor_ids rows _ (fun _ hx => List.mem_dedup.mp hx)

/-- Helper: every row kept by `dedupMax` is an input row whose target
value is maximal among input rows sharing its identifier. -/
theorem mem_dedupMax (rows : List OWRow) (r : OWRow) (h : r ∈ dedupMax rows) :
    r ∈ rows ∧ ∀ r' ∈ rows, r'.id = r.id → r'.target ≤ r.target := by
  obtain ⟨x, hx, heq⟩ := List.mem_filterMap.mp h
  obtain ⟨m, hm, hid, hmem, hmax⟩ := bestFor_spec rows x (List.mem_dedup.mp hx)
  rw [hm] at heq
  obtain rfl := Option.some_injective _ heq
  exact ⟨hmem, fun r' h1 h2 => hmax r' h1 (h2.trans hid)⟩

/-- Helper: with both columns present, `clean_deduplicate_and_shuffle`
succeeds with the shuffled deduplicated rows. -/
theorem clean_dedup_eq_ok (df : OWFrame) (idCol targetCol : String) (rs : ℕ)
    (hid : idCol ∈ df.cols) (htg : targetCol ∈ df.cols) :
    clean_deduplicate_and_shuffle df idCol targetCol rs =
      Except.ok ⟨df.cols, shuffleRows rs (dedupMax df.rows)⟩ := by
  have hmiss : [idCol, targetCol].filter (fun c => !df.cols.contains c) = [] := by
    rw [List.filter_eq_nil_iff]
    intro c hc
    simp only [List.mem_cons, List.not_mem_nil, or_false] at hc
    rcases hc with rfl | rfl <;> simp [hid, htg]
  simp only [clean_deduplicate_and_shuffle]
  rw [if_pos hmiss]

/-- C2: with the id and target columns present,
`clean_deduplicate_and_shuffle` returns a frame with pairwise-distinct
identifiers covering exactly the input identifiers, and each kept row is
an input row whose target is maximal among rows sharing its identifier. -/
theorem clean_dedup_keeps_max_per_id (df : OWFrame) (idCol targetCol : String)
    (rs : ℕ) (hid : idCol ∈ df.cols) (htg : targetCol ∈ df.cols) :
    ∃ out, clean_deduplicate_and_shuffle df idCol targetCol rs = Except.ok out ∧
      (out.rows.map (fun r => r.id)).Nodup ∧
      (∀ i, i ∈ out.rows.map (fun r => r.id) ↔
            i ∈ df.rows.map (fun r => r.id)) ∧
      ∀ r ∈ out.rows, r ∈ df.rows ∧
        ∀ r' ∈ df.rows, r'.id = r.id → r'.target ≤ r.target := by
  refine ⟨_, clean_dedup_eq_ok df idCol targetCol rs hid htg, ?_, ?_, ?_⟩
  · have hperm : ((shuffleRows rs (dedupMax df.rows)).map (fun r => r.id)).Perm
        ((dedupMax df.rows).map (fun r => r.id)) :=
      (List.rotate_perm _ _).map _
    exact hperm.symm.nodup (by rw [dedupMax_ids]; exact List.nodup_dedup _)
  · intro i
    have hperm : ((shuffleRows rs (dedupMax df.rows)).map (fun r => r.id)).Perm
        ((dedupMax df.rows).map (fun r => r.id)) :=
      (List.rotate_perm _ _).map _
    rw [hperm.mem_iff, dedupMax_ids, List.mem_dedup]
  · intro r hr
    exact mem_dedupMax df.rows r ((List.rotate_perm _ _).mem_iff.mp hr)

/-- Witness for C2 on a three-row frame with a duplicated well id. -/
theorem clean_dedup_keeps_max_per_id_witness :
    ∃ out, clean_deduplicate_and_shuffle
        ⟨["id", "f0", "f1", "f2", "product"],
         [⟨"w1", [1], 100⟩, ⟨"w1", [1], 50⟩, ⟨"w2", [2], 75⟩]⟩
        "id" "product" 7 = Except.ok out ∧
      (out.rows.map (fun r => r.id)).Nodup ∧
      (∀ i, i ∈ out.rows.map (fun r => r.id) ↔
            i ∈ ([⟨"w1", [1], 100⟩, ⟨"w1", [1], 50⟩,
                  ⟨"w2", [2], 75⟩] : List OWRow).map (fun r => r.id)) ∧
      ∀ r ∈ out.rows,
        r ∈ ([⟨"w1", [1], 100⟩, ⟨"w1", [1], 50⟩,
              ⟨"w2", [2], 75⟩] : List OWRow) ∧
        ∀ r' ∈ ([⟨"w1", [1], 100⟩, ⟨"w1", [1], 50⟩,
                 ⟨"w2", [2], 75⟩] : List OWRow),
          r'.id = r.id → r'.target ≤ r.target :=
  clean_dedup_keeps_max_per_id
    ⟨["id", "f0", "f1", "f2", "product"],
     [⟨"w1", [1], 100⟩, ⟨"w1", [1], 50⟩, ⟨"w2", [2], 75⟩]⟩
    "id" "product" 7 (by simp) (by simp)

/-- C10: `clean_deduplicate_and_shuffle` fails with a message starting
with "Missing columns" exactly when the id or target column is absent,
and succeeds when both are present. -/
theorem clean_dedup_missing_columns (df : OWFrame) (idCol targetCol : String)
    (rs : ℕ) :
    ((idCol ∉ df.cols ∨ targetCol ∉ df.cols) →
      ∃ msg, clean_deduplicate_and_shuffle df idCol targetCol rs =
          Except.error msg ∧ "Missing columns".data <+: msg.data) ∧
    (idCol ∈ df.cols → targetCol ∈ df.cols →
      ∃ out, clean_deduplicate_and_shuffle df idCol targetCol rs =
          Except.ok out) := by
  constructor
  · intro h
    have hne : [idCol, targetCol].filter (fun c => !df.cols.contains c) ≠ [] := by
      intro hnil
      rw [List.filter_eq_nil_iff] at hnil
      rcases h with h | h
      · exact hnil idCol (by simp) (by simpa using h)
      · exact hnil targetCol (by simp) (by simpa using h)
    refine ⟨"Missing columns" ++ ": " ++ String.intercalate ", "
        ([idCol, targetCol].filter (fun c => !df.cols.contains c)), ?_, ?_⟩
    · simp only [clean_deduplicate_and_shuffle]
      rw [if_neg hne]
    · rw [String.data_append, String.data_append, List.append_assoc]
      exact List.prefix_append _ _
  · intro hid htg
    exact ⟨_, clean_dedup_eq_ok df idCol targetCol rs hid htg⟩

/-- Witness for C10: a frame lacking both columns yields the error, and a
frame with both columns succeeds. -/
theorem clean_dedup_missing_columns_witness :
    (∃ msg, clean_deduplicate_and_shuffle ⟨["f0", "f1"], []⟩ "id" "product" 42 =
        Except.error msg ∧ "Missing columns".data <+: msg.data) ∧
    (∃ out, clean_deduplicate_and_shuffle
        ⟨["id", "product"], [⟨"w1", [], 10⟩]⟩ "id" "product" 42 =
        Except.ok out) :=
  ⟨(clean_dedup_missing_columns ⟨["f0", "f1"], []⟩ "id" "product" 42).1
      (Or.inl (by simp)),
   (clean_dedup_missing_columns ⟨["id", "product"], [⟨"w1", [], 10⟩]⟩
      "id" "product" 42).2 (by simp) (by simp)⟩

/-- C5: `compute_profit` is `predicted_units_sum * revenue_per_unit -
total_cost`, and with zero predicted units the profit is `-total_cost`. -/
theorem compute_profit_spec (p r c : ℚ) :
    compute_profit p r c = p * r - c ∧ compute_profit 0 r c = -c := by
  constructor
  · rfl
  · simp [compute_profit]

/-- C3: the target vector of `make_features_and_target` has one entry per
row, each entry is 1 exactly when that row's `total_sales` reaches the
configured threshold and 0 otherwise, and the default configured
threshold is 1.0 million. -/
theorem make_target_binary_threshold (df : Frame) (config : PreprocessConfig)
    (i : ℕ) (r : List Cell) (hr : df.rows.get? i = some r) :
    (make_features_and_target df config).2.length = df.rows.length ∧
    (make_features_and_target df config).2.get? i =
      some (match cellNum (getCell df.cols r "total_sales") with
            | some v => if config.target_threshold_million ≤ v then (1 : ℚ) else 0
            | none => 0) ∧
    ({} : PreprocessConfig).target_threshold_million = 1 := by
  refine ⟨by simp [make_features_and_target], ?_, rfl⟩
  simp only [make_features_and_target, List.get?_eq_getElem?,
    List.getElem?_map]
  rw [List.get?_eq_getElem?] at hr
  rw [hr]
  simp [rowTarget]

/-- Witness for C3 on a two-row frame with threshold 2: total sales 38/5
maps to 1 and total sales 7/20 maps to 0. -/
theorem make_target_binary_threshold_witness :
    (make_features_and_target
        ⟨["name", "genre", "total_sales"],
         [[Cell.str "Game A", Cell.str "Action", Cell.num (38/5)],
          [Cell.str "Game F", Cell.str "Action", Cell.num (7/20)]]⟩
        ⟨"median", "most_frequent", true, 2⟩).2.length = 2 ∧
      (make_features_and_target
        ⟨["name", "genre", "total_sales"],
         [[Cell.str "Game A", Cell.str "Action", Cell.num (38/5)],
          [Cell.str "Game F", Cell.str "Action", Cell.num (7/20)]]⟩
        ⟨"median", "most_frequent", true, 2⟩).2.get? 0 =
        some (match cellNum (getCell ["name", "genre", "total_sales"]
                [Cell.str "Game A", Cell.str "Action", Cell.num (38/5)]
                "total_sales") with
              | some v => if (2 : ℚ) ≤ v then (1 : ℚ) else 0
              | none => 0) ∧
      ({} : PreprocessConfig).target_threshold_million = 1 := by
  have h := make_target_binary_threshold
    ⟨["name", "genre", "total_sales"],
     [[Cell.str "Game A", Cell.str "Action", Cell.num (38/5)],
      [Cell.str "Game F", Cell.str "Action", Cell.num (7/20)]]⟩
    ⟨"median", "most_frequent", true, 2⟩ 0
    [Cell.str "Game A", Cell.str "Action", Cell.num (38/5)] rfl
  exact ⟨by simpa using h.1, h.2.1, h.2.2⟩

/-- C4: no column used to derive the target (the regional sales columns
and `total_sales`) appears among the feature columns returned by
`make_features_and_target`. -/
theorem make_features_excludes_sales_cols (df : Frame)
    (config : PreprocessConfig) (c : String) (hc : c ∈ salesCols) :
    c ∉ (make_features_and_target df config).1.cols := by
  intro hmem
  simp only [make_features_and_target, dropColumns, List.mem_filter,
    Bool.not_eq_eq_eq_not, Bool.not_true] at hmem
  rw [List.contains_eq_any_beq] at hmem
  have : salesCols.any (fun x => c == x) = true :=
    List.any_eq_true.mpr ⟨c, hc, by simp⟩
  rw [this] at hmem
  exact absurd hmem.2 (by simp)

/-- Witness for C4: `na_sales` is not among the feature columns of a
concrete frame that contains it. -/
theorem make_features_excludes_sales_cols_witness :
    "na_sales" ∉ (make_features_and_target
      ⟨["name", "na_sales", "total_sales"],
       [[Cell.str "G1", Cell.num 3, Cell.num (13/2)]]⟩
      ⟨"median", "most_frequent", true, 1⟩).1.cols :=
  make_features_excludes_sales_cols
    ⟨["name", "na_sales", "total_sales"],
     [[Cell.str "G1", Cell.num 3, Cell.num (13/2)]]⟩
    ⟨"median", "most_frequent", true, 1⟩ "na_sales" (by simp [salesCols])

/-- C8: every record returned by `load_raw_dataset` carries a
`total_sales` equal to the sum of its four regional sales values. -/
theorem load_raw_dataset_total_sales (rows : List RawGame) (g : Game)
    (h : g ∈ load_raw_dataset rows) :
    g.total_sales = g.na_sales + g.eu_sales + g.jp_sales + g.other_sales := by
  obtain ⟨r, -, rfl⟩ := List.mem_map.mp h
  rfl

/-- Witness for C8 on a one-row raw table with sales 3, 2, 1, 1/2. -/
theorem load_raw_dataset_total_sales_witness :
    (⟨"G1", "PS4", some 2015, "Action", 3, 2, 1, 1/2, some 90, some (17/2),
      "M", 13/2⟩ : Game).total_sales =
      (⟨"G1", "PS4", some 2015, "Action", 3, 2, 1, 1/2, some 90, some (17/2),
        "M", 13/2⟩ : Game).na_sales +
      (⟨"G1", "PS4", some 2015, "Action", 3, 2, 1, 1/2, some 90, some (17/2),
        "M", 13/2⟩ : Game).eu_sales +
      (⟨"G1", "PS4", some 2015, "Action", 3, 2, 1, 1/2, some 90, some (17/2),
        "M", 13/2⟩ : Game).jp_sales +
      (⟨"G1", "PS4", some 2015, "Action", 3, 2, 1, 1/2, some 90, some (17/2),
        "M", 13/2⟩ : Game).other_sales :=
  load_raw_dataset_total_sales
    [⟨"G1", "PS4", some 2015, "Action", 3, 2, 1, 1/2, some 90,
      RawScore.val (17/2), "M"⟩]
    ⟨"G1", "PS4", some 2015, "Action", 3, 2, 1, 1/2, some 90, some (17/2),
      "M", 13/2⟩
    (by simp [load_raw_dataset]; norm_num)

/-- Helper: `getCell` on a cons of columns and cells. -/
theorem getCell_cons (a : String) (as : List String) (b : Cell)
    (bs : List Cell) (c : String) :
    getCell (a :: as) (b :: bs) c = if a == c then b else getCell as bs c := by
  simp only [getCell, colIdx]
  by_cases h : (a == c) = true
  · simp [h]
  · cases hfi : colIdx as c with
    | none => simp [h, hfi]
    | some j => simp [h, hfi]

/-- Helper: dropping columns by a keep-predicate commutes with named cell
lookup, for a kept column and a row matching the column list in length. -/
theorem getCell_filter_keep (cols : List String) (r : List Cell)
    (keep : String → Bool) (c : String) (hkc : keep c = true)
    (hlen : r.length = cols.length) :
    getCell (cols.filter keep)
      (((cols.zip r).filter (fun p => keep p.1)).map (fun p => p.2)) c =
      getCell cols r c := by
  induction cols generalizing r with
  | nil =>
    cases r with
    | nil => rfl
    | cons b bs => simp at hlen
  | cons a as ih =>
    cases r with
    | nil => simp at hlen
    | cons b bs =>
      have hlen' : bs.length = as.length := by simpa using hlen
      by_cases hka : keep a = true
      · have h1 : List.filter keep (a :: as) = a :: List.filter keep as :=
          List.filter_cons_of_pos hka
        have h2 : List.filter (fun p => keep p.1) ((a, b) :: as.zip bs) =
            (a, b) :: List.filter (fun p => keep p.1) (as.zip bs) :=
          List.filter_cons_of_pos hka
        rw [List.zip_cons_cons, h1, h2, List.map_cons, getCell_cons,
            getCell_cons]
        by_cases hac : (a == c) = true
        · simp [hac]
        · simp only [hac, Bool.false_eq_true, if_false]
          exact ih bs hlen'
      · have hka' : keep a = false := by
          rcases Bool.eq_false_or_eq_true (keep a) with h | h
          · exact absurd h hka
          · exact h
        have hac : (a == c) = false := by
          rcases Bool.eq_false_or_eq_true (a == c) with h | h
          · exact absurd (show keep a = true by rw [eq_of_beq h]; exact hkc) hka
          · exact h
        have h1 : List.filter keep (a :: as) = List.filter keep as :=
          List.filter_cons_of_neg (by simp [hka'])
        have h2 : List.filter (fun p => keep p.1) ((a, b) :: as.zip bs) =
            List.filter (fun p => keep p.1) (as.zip bs) :=
          List.filter_cons_of_neg (by simp [hka'])
        rw [List.zip_cons_cons, h1, h2, getCell_cons]
        simp only [hac, Bool.false_eq_true, if_false]
        exact ih bs hlen'

/-- C6: with the recovery column present and a rectangular frame,
`basic_clean` keeps exactly the columns at most 60 percent null (measured
on the recovery-valid rows), keeps exactly the rows whose
`final.output.recovery` is a number in [0, 100], and leaves every kept
cell unchanged. -/
theorem basic_clean_spec (df : Frame)
    (hcol : "final.output.recovery" ∈ df.cols)
    (hrect : ∀ r ∈ df.rows, r.length = df.cols.length) :
    (∀ c, c ∈ (basic_clean df).cols ↔
      c ∈ df.cols ∧ highNull (rowFiltered df) c = false) ∧
    (basic_clean df).rows.length =
      (df.rows.filter (recoveryOK df.cols)).length ∧
    ∀ i c, i < (df.rows.filter (recoveryOK df.cols)).length →
      c ∈ (basic_clean df).cols →
      getCell (basic_clean df).cols ((basic_clean df).rows.getD i []) c =
        getCell df.cols ((df.rows.filter (recoveryOK df.cols)).getD i []) c := by
  have hct : df.cols.contains "final.output.recovery" = true := by
    simpa using hcol
  have hdf1 : basic_clean df =
      dropColumns (rowFiltered df)
        ((rowFiltered df).cols.filter (highNull (rowFiltered df))) := by
    simp [basic_clean, hcol]
  refine ⟨?_, ?_, ?_⟩
  · intro c
    rw [hdf1]
    simp only [dropColumns, List.mem_filter, Bool.not_eq_true']
    rw [show (rowFiltered df).cols = df.cols from rfl]
    constructor
    · rintro ⟨h1, h2⟩
      refine ⟨h1, ?_⟩
      rcases Bool.eq_false_or_eq_true (highNull (rowFiltered df) c) with
        htrue | hfalse
      · exfalso
        have hmemf : c ∈ List.filter (highNull (rowFiltered df)) df.cols :=
          List.mem_filter.mpr ⟨h1, htrue⟩
        have hcont : (List.filter (highNull (rowFiltered df))
            df.cols).contains c = true := by simpa using hmemf
        rw [h2] at hcont
        exact Bool.false_ne_true hcont
      · exact hfalse
    · rintro ⟨h1, h2⟩
      refine ⟨h1, ?_⟩
      have hnmem : c ∉ List.filter (highNull (rowFiltered df)) df.cols := by
        intro hmem
        have hh := (List.mem_filter.mp hmem).2
        rw [h2] at hh
        exact Bool.false_ne_true hh
      simpa using hnmem
  · rw [hdf1]
    simp [dropColumns, rowFiltered]
  · intro i c hi hc
    have hkc : (!((rowFiltered df).cols.filter
        (highNull (rowFiltered df))).contains c) = true := by
      rw [hdf1] at hc
      exact (List.mem_filter.mp hc).2
    rw [hdf1]
    have hlen1 : i < ((dropColumns (rowFiltered df)
        ((rowFiltered df).cols.filter (highNull (rowFiltered df)))).rows).length := by
      simpa [dropColumns, rowFiltered] using hi
    rw [List.getD_eq_getElem _ _ hlen1]
    simp only [dropColumns]
    rw [List.getElem_map]
    have hi' : i < (rowFiltered df).rows.length := by
      simpa [rowFiltered] using hi
    have hmem : (rowFiltered df).rows[i] ∈ df.rows :=
      List.mem_of_mem_filter (List.getElem_mem _)
    have hres := getCell_filter_keep (rowFiltered df).cols
      ((rowFiltered df).rows[i])
      (fun name => !((rowFiltered df).cols.filter
        (highNull (rowFiltered df))).contains name) c hkc
      (by rw [hrect _ hmem]; rfl)
    rw [hres]
    rw [List.getD_eq_getElem _ _ hi]
    rfl

/-- Witness for C6 on a four-row frame: rows with recovery -5 and 110 are
removed, the all-null column is dropped, and kept cells are unchanged. -/
theorem basic_clean_spec_witness :
    (∀ c, c ∈ (basic_clean ⟨["final.output.recovery", "feature1", "bad_col"],
        [[Cell.num 50, Cell.num 1, Cell.null],
         [Cell.num (-5), Cell.num 2, Cell.null],
         [Cell.num 110, Cell.num 3, Cell.null],
         [Cell.num 75, Cell.num 4, Cell.null]]⟩).cols ↔
      c ∈ ["final.output.recovery", "feature1", "bad_col"] ∧
        highNull (rowFiltered ⟨["final.output.recovery", "feature1", "bad_col"],
          [[Cell.num 50, Cell.num 1, Cell.null],
           [Cell.num (-5), Cell.num 2, Cell.null],
           [Cell.num 110, Cell.num 3, Cell.null],
           [Cell.num 75, Cell.num 4, Cell.null]]⟩) c = false) ∧
    (basic_clean ⟨["final.output.recovery", "feature1", "bad_col"],
        [[Cell.num 50, Cell.num 1, Cell.null],
         [Cell.num (-5), Cell.num 2, Cell.null],
         [Cell.num 110, Cell.num 3, Cell.null],
         [Cell.num 75, Cell.num 4, Cell.null]]⟩).rows.length =
      ([[Cell.num 50, Cell.num 1, Cell.null],
        [Cell.num (-5), Cell.num 2, Cell.null],
        [Cell.num 110, Cell.num 3, Cell.null],
        [Cell.num 75, Cell.num 4, Cell.null]].filter
          (recoveryOK ["final.output.recovery", "feature1", "bad_col"])).length ∧
    ∀ i c, i < ([[Cell.num 50, Cell.num 1, Cell.null],
        [Cell.num (-5), Cell.num 2, Cell.null],
        [Cell.num 110, Cell.num 3, Cell.null],
        [Cell.num 75, Cell.num 4, Cell.null]].filter
          (recoveryOK ["final.output.recovery", "feature1", "bad_col"])).length →
      c ∈ (basic_clean ⟨["final.output.recovery", "feature1", "bad_col"],
          [[Cell.num 50, Cell.num 1, Cell.null],
           [Cell.num (-5), Cell.num 2, Cell.null],
           [Cell.num 110, Cell.num 3, Cell.null],
           [Cell.num 75, Cell.num 4, Cell.null]]⟩).cols →
      getCell (basic_clean ⟨["final.output.recovery", "feature1", "bad_col"],
          [[Cell.num 50, Cell.num 1, Cell.null],
           [Cell.num (-5), Cell.num 2, Cell.null],
           [Cell.num 110, Cell.num 3, Cell.null],
           [Cell.num 75, Cell.num 4, Cell.null]]⟩).cols
        ((basic_clean ⟨["final.output.recovery", "feature1", "bad_col"],
          [[Cell.num 50, Cell.num 1, Cell.null],
           [Cell.num (-5), Cell.num 2, Cell.null],
           [Cell.num 110, Cell.num 3, Cell.null],
           [Cell.num 75, Cell.num 4, Cell.null]]⟩).rows.getD i []) c =
        getCell ["final.output.recovery", "feature1", "bad_col"]
          (([[Cell.num 50, Cell.num 1, Cell.null],
             [Cell.num (-5), Cell.num 2, Cell.null],
             [Cell.num 110, Cell.num 3, Cell.null],
             [Cell.num 75, Cell.num 4, Cell.null]].filter
               (recoveryOK ["final.output.recovery", "feature1",
                 "bad_col"])).getD i []) c :=
  basic_clean_spec
    ⟨["final.output.recovery", "feature1", "bad_col"],
     [[Cell.num 50, Cell.num 1, Cell.null],
      [Cell.num (-5), Cell.num 2, Cell.null],
      [Cell.num 110, Cell.num 3, Cell.null],
      [Cell.num 75, Cell.num 4, Cell.null]]⟩
    (by simp) (by decide)

/-- Helper: `fillRow` acts pointwise on positions covered by the medians
list. -/
theorem fillRow_getD (ms : List (Option ℚ)) (r : List Cell) (j : ℕ)
    (hj : j < r.length) (hjm : j < ms.length) :
    (fillRow ms r).getD j Cell.null =
      if r.getD j Cell.null = Cell.null then
        match ms.getD j none with
        | some q => Cell.num q
        | none => Cell.null
      else r.getD j Cell.null := by
  induction r generalizing ms j with
  | nil => simp at hj
  | cons c0 cs ih =>
    cases ms with
    | nil => simp at hjm
    | cons m ms' =>
      cases j with
      | zero => simp [fillRow]
      | succ k =>
        simpa [fillRow] using
          ih ms' k (by simpa using hj) (by simpa using hjm)

/-- Helper: `fillRow` yields no null when the medians cover the row and
none of them is NaN. -/
theorem fillRow_no_null (ms : List (Option ℚ)) (r : List Cell)
    (hlen : r.length ≤ ms.length) (hms : ∀ m ∈ ms, m ≠ none) :
    ∀ c ∈ fillRow ms r, c ≠ Cell.null := by
  induction r generalizing ms with
  | nil =>
    intro c hc
    cases ms <;> simp [fillRow] at hc
  | cons c0 cs ih =>
    cases ms with
    | nil => simp at hlen
    | cons m ms' =>
      intro c hc
      simp only [fillRow, List.mem_cons] at hc
      rcases hc with rfl | hc
      · have hm := hms m (List.mem_cons_self _ _)
        cases m with
        | none => exact absurd rfl hm
        | some q => by_cases h0 : c0 = Cell.null <;> simp [h0]
      · exact ih ms' (by simpa using hlen)
          (fun x hx => hms x (List.mem_cons_of_mem _ hx)) c hc

/-- Helper: the median of a nonempty list exists. -/
theorem median_isSome (l : List ℚ) (h : l ≠ []) : ∃ m, median l = some m := by
  cases l with
  | nil => exact absurd rfl h
  | cons x xs =>
    simp only [median]
    split <;> exact ⟨_, rfl⟩

/-- C7 counterexample: on a frame whose only column is entirely null,
`fill_missing_with_median` returns a frame that still contains a null, so
the returned frame does not always contain no nulls. -/
theorem fill_median_all_null_counterexample :
    hasNull (fill_missing_with_median ⟨["a"], [[Cell.null]]⟩) = true := by
  rfl

/-- C7 (amended): on a rectangular frame each of whose columns has at
least one non-null numeric entry, `fill_missing_with_median` returns a
frame with no nulls, the same columns and row count, and each cell equal
to the original when non-null and to the column median of the non-null
entries when null. -/
theorem fill_missing_with_median_spec (df : Frame)
    (hrect : ∀ r ∈ df.rows, r.length = df.cols.length)
    (hnn : ∀ j, j < df.cols.length → colNums df j ≠ []) :
    hasNull (fill_missing_with_median df) = false ∧
    (fill_missing_with_median df).cols = df.cols ∧
    (fill_missing_with_median df).rows.length = df.rows.length ∧
    ∀ i j, i < df.rows.length → j < df.cols.length →
      ((fill_missing_with_median df).rows.getD i []).getD j Cell.null =
        (if (df.rows.getD i []).getD j Cell.null = Cell.null then
           match median (colNums df j) with
           | some q => Cell.num q
           | none => Cell.null
         else (df.rows.getD i []).getD j Cell.null) := by
  have hmslen : (colMedians df).length = df.cols.length := by
    simp [colMedians]
  have hms : ∀ m ∈ colMedians df, m ≠ none := by
    intro m hm
    simp only [colMedians, List.mem_map, List.mem_range] at hm
    obtain ⟨j, hj, rfl⟩ := hm
    obtain ⟨v, hv⟩ := median_isSome _ (hnn j hj)
    simp [hv]
  refine ⟨?_, rfl, by simp [fill_missing_with_median], ?_⟩
  · rw [hasNull, List.any_eq_false]
    intro r hr
    simp only [fill_missing_with_median, List.mem_map] at hr
    obtain ⟨r0, hr0, rfl⟩ := hr
    have hnon := fillRow_no_null (colMedians df) r0
      (by rw [hmslen]; exact (hrect r0 hr0).le) hms
    have hnmem : Cell.null ∉ fillRow (colMedians df) r0 :=
      fun hcmem => hnon _ hcmem rfl
    simpa using hnmem
  · intro i j hi hj
    have hmem : df.rows.getD i [] ∈ df.rows := by
      rw [List.getD_eq_getElem _ _ hi]
      exact List.getElem_mem _
    have hrlen : j < (df.rows.getD i []).length := by
      rw [hrect _ hmem]; exact hj
    have hjm : j < (colMedians df).length := by rw [hmslen]; exact hj
    have hrow : (fill_missing_with_median df).rows.getD i [] =
        fillRow (colMedians df) (df.rows.getD i []) := by
      simp only [fill_missing_with_median]
      rw [List.getD_eq_getElem _ _ (by simpa using hi), List.getElem_map,
          List.getD_eq_getElem _ _ hi]
    rw [hrow, fillRow_getD _ _ _ hrlen hjm]
    have hmed : (colMedians df).getD j none = median (colNums df j) := by
      rw [List.getD_eq_getElem _ _ hjm]
      simp [colMedians]
    rw [hmed]

/-- Witness for C7 (amended) on a one-column frame holding 1 and a null:
the null is filled with the median 1 and the numeric cell is kept. -/
theorem fill_missing_with_median_spec_witness :
    hasNull (fill_missing_with_median ⟨["a"],
      [[Cell.num 1], [Cell.null]]⟩) = false ∧
    (fill_missing_with_median ⟨["a"], [[Cell.num 1], [Cell.null]]⟩).cols =
      ["a"] ∧
    (fill_missing_with_median ⟨["a"],
      [[Cell.num 1], [Cell.null]]⟩).rows.length = 2 ∧
    ∀ i j, i < 2 → j < 1 →
      ((fill_missing_with_median ⟨["a"],
          [[Cell.num 1], [Cell.null]]⟩).rows.getD i []).getD j Cell.null =
        (if (([[Cell.num 1], [Cell.null]] :
              List (List Cell)).getD i []).getD j Cell.null = Cell.null then
           match median (colNums ⟨["a"], [[Cell.num 1], [Cell.null]]⟩ j) with
           | some q => Cell.num q
           | none => Cell.null
         else (([[Cell.num 1], [Cell.null]] :
              List (List Cell)).getD i []).getD j Cell.null) :=
  fill_missing_with_median_spec ⟨["a"], [[Cell.num 1], [Cell.null]]⟩
    (by decide) (by decide)

/-- C9: `set_seed` uses, in priority order, the explicit argument, then the
integer value of the SEED environment variable, then 42, and returns the
seed it used. -/
theorem set_seed_priority :
    (∀ (s : ℤ) (env : Option String), set_seed (some s) env = Except.ok s) ∧
    (∀ (v : String) (n : ℤ), parseInt v = some n →
        set_seed none (some v) = Except.ok n) ∧
    set_seed none none = Except.ok 42 := by
  refine ⟨fun s env => rfl, fun v n h => ?_, rfl⟩
  simp [set_seed, h]

/-- Witness for C9: explicit seed 7 beats env "99"; env "99" parses to 99;
with neither, the default is 42. -/
theorem set_seed_priority_witness :
    set_seed (some 7) (some "99") = Except.ok 7 ∧
    set_seed none (some "99") = Except.ok 99 ∧
    set_seed none none = Except.ok 42 :=
  ⟨set_seed_priority.1 7 (some "99"),
   set_seed_priority.2.1 "99" 99 (by decide),
   set_seed_priority.2.2⟩

end AppliedML
